import Mathlib

/-!
Verification of the `bf16::bfloat16_t` value type
(src/include/bfloat16/bfloat16.hpp) against its specification.

The 16-bit value is modelled as a structure holding its stored pattern as a
`Nat`; a well-formed value (one the C++ `uint16_t data` member can hold) has
`data < 2 ^ 16`.  A 32-bit float is represented by its bit pattern (the
result of `std::bit_cast<uint32_t>`), a natural number below `2 ^ 32`; every
write into a fixed-width C++ integer is modelled with an explicit `% 2 ^ w`.
The platform's IEEE-754 float32 add/sub/mul/div, which the header calls but
does not implement, appear as explicit function parameters on 32-bit
patterns.
-/

namespace bf16

/-- Constant `SIGN_MASK` from the header (a `uint32_t`). -/
def SIGN_MASK : Nat := 0x8000

/-- Constant `EXP_MASK` from the header (a `uint32_t`). -/
def EXP_MASK : Nat := 0x7F80

/-- Constant `MANT_MASK` from the header (a `uint32_t`). -/
def MANT_MASK : Nat := 0x007F

/-- Constant `EXP_SHIFT` from the header. -/
def EXP_SHIFT : Nat := 7

/-- Constant `EXP_BIAS` from the header. -/
def EXP_BIAS : Nat := 127

/-- The `bfloat16_t` class: a single `uint16_t data` member holding the
16-bit pattern.  `data` is a `Nat`; well-formed values keep it below
`2 ^ 16`, as the C++ member type does. -/
structure bfloat16_t where
  data : Nat
deriving DecidableEq, Repr

/-- `bfloat16_t::bfloat16_t(float)`: `float_bits = bit_cast<uint32_t>(value);
float_bits += 0x7FFF; data = static_cast<uint16_t>(float_bits >> 16);`.
The argument is the float's 32-bit pattern; the `+=` wraps at `2 ^ 32` and
the `static_cast<uint16_t>` truncates at `2 ^ 16`. -/
def bfloat16_t.fromFloatBits (value_bits : Nat) : bfloat16_t :=
  ⟨((((value_bits % 2 ^ 32) + 0x7FFF) % 2 ^ 32) >>> 16) % 2 ^ 16⟩

/-- `bfloat16_t::operator float()`: `float_bits = uint32_t(data) << 16;
return bit_cast<float>(float_bits);`.  Returns the float's 32-bit pattern. -/
def bfloat16_t.toFloatBits (x : bfloat16_t) : Nat :=
  ((x.data % 2 ^ 16) <<< 16) % 2 ^ 32

/-- Defaulted `operator==`: member-wise equality of the single `uint16_t`. -/
def bfloat16_t.beq (x y : bfloat16_t) : Bool :=
  x.data == y.data

/-- Defaulted `operator<=>`: member-wise comparison of the single
`uint16_t`, i.e. the unsigned integer comparison of the stored patterns. -/
def bfloat16_t.cmp (x y : bfloat16_t) : Ordering :=
  if x.data < y.data then Ordering.lt
  else if x.data = y.data then Ordering.eq
  else Ordering.gt

/-- `bfloat16_t::operator-()`: `result.data = data ^ SIGN_MASK` (the xor is
computed in `uint32_t` and assigned back into the `uint16_t` member). -/
def bfloat16_t.neg (x : bfloat16_t) : bfloat16_t :=
  ⟨(x.data ^^^ SIGN_MASK) % 2 ^ 16⟩

/-- `bfloat16_t::operator+=`: `*this = float(*this) + float(other)`.
`float32_add` is the platform's IEEE-754 float32 addition on 32-bit
patterns; the result is the updated receiver. -/
def bfloat16_t.addAssign (float32_add : Nat → Nat → Nat) (x y : bfloat16_t) :
    bfloat16_t :=
  bfloat16_t.fromFloatBits (float32_add x.toFloatBits y.toFloatBits)

/-- `bfloat16_t::operator-=`: `*this = float(*this) - float(other)`. -/
def bfloat16_t.subAssign (float32_sub : Nat → Nat → Nat) (x y : bfloat16_t) :
    bfloat16_t :=
  bfloat16_t.fromFloatBits (float32_sub x.toFloatBits y.toFloatBits)

/-- `bfloat16_t::operator*=`: `*this = float(*this) * float(other)`. -/
def bfloat16_t.mulAssign (float32_mul : Nat → Nat → Nat) (x y : bfloat16_t) :
    bfloat16_t :=
  bfloat16_t.fromFloatBits (float32_mul x.toFloatBits y.toFloatBits)

/-- `bfloat16_t::operator/=`: `*this = float(*this) / float(other)`. -/
def bfloat16_t.divAssign (float32_div : Nat → Nat → Nat) (x y : bfloat16_t) :
    bfloat16_t :=
  bfloat16_t.fromFloatBits (float32_div x.toFloatBits y.toFloatBits)

/-- Free `operator+`: takes `lhs` by value, runs `lhs += rhs`, returns
`lhs`. -/
def bfloat16_t.add (float32_add : Nat → Nat → Nat) (lhs rhs : bfloat16_t) :
    bfloat16_t :=
  lhs.addAssign float32_add rhs

/-- Free `operator-` (binary): `lhs -= rhs; return lhs`. -/
def bfloat16_t.sub (float32_sub : Nat → Nat → Nat) (lhs rhs : bfloat16_t) :
    bfloat16_t :=
  lhs.subAssign float32_sub rhs

/-- Free `operator*`: `lhs *= rhs; return lhs`. -/
def bfloat16_t.mul (float32_mul : Nat → Nat → Nat) (lhs rhs : bfloat16_t) :
    bfloat16_t :=
  lhs.mulAssign float32_mul rhs

/-- Free `operator/`: `lhs /= rhs; return lhs`. -/
def bfloat16_t.div (float32_div : Nat → Nat → Nat) (lhs rhs : bfloat16_t) :
    bfloat16_t :=
  lhs.divAssign float32_div rhs

/-- `bfloat16_t::is_nan`: `((data & EXP_MASK) == EXP_MASK) &&
((data & MANT_MASK) != 0)`. -/
def bfloat16_t.is_nan (x : bfloat16_t) : Bool :=
  ((x.data &&& EXP_MASK) == EXP_MASK) && ((x.data &&& MANT_MASK) != 0)

/-- `bfloat16_t::is_infinity`: `((data & EXP_MASK) == EXP_MASK) &&
((data & MANT_MASK) == 0)`. -/
def bfloat16_t.is_infinity (x : bfloat16_t) : Bool :=
  ((x.data &&& EXP_MASK) == EXP_MASK) && ((x.data &&& MANT_MASK) == 0)

/-- `bfloat16_t::is_zero`: `(data & ~SIGN_MASK) == 0`; `~SIGN_MASK` is the
complement of `0x8000` at `uint32_t` width, i.e. `0xFFFF7FFF`. -/
def bfloat16_t.is_zero (x : bfloat16_t) : Bool :=
  (x.data &&& 0xFFFF7FFF) == 0

/-- `bfloat16_t::is_negative`: `(data & SIGN_MASK) != 0`. -/
def bfloat16_t.is_negative (x : bfloat16_t) : Bool :=
  (x.data &&& SIGN_MASK) != 0

/-- `bfloat16_t::zero()`: pattern `0`. -/
def bfloat16_t.zero : bfloat16_t := ⟨0⟩

/-- `bfloat16_t::infinity()`: pattern `EXP_MASK`. -/
def bfloat16_t.infinity : bfloat16_t := ⟨EXP_MASK⟩

/-- `bfloat16_t::negative_infinity()`: pattern `SIGN_MASK | EXP_MASK`. -/
def bfloat16_t.negative_infinity : bfloat16_t := ⟨SIGN_MASK ||| EXP_MASK⟩

/-- `bfloat16_t::nan()`: pattern `EXP_MASK | 0x0001`. -/
def bfloat16_t.nan : bfloat16_t := ⟨EXP_MASK ||| 0x0001⟩

end bf16

namespace std_numeric_limits

/-- `std::numeric_limits<bfloat16_t>::min()`: raw bits `0x0080`. -/
def min : bf16.bfloat16_t := ⟨0x0080⟩

/-- `std::numeric_limits<bfloat16_t>::lowest()`: raw bits `0xFF7F`. -/
def lowest : bf16.bfloat16_t := ⟨0xFF7F⟩

/-- `std::numeric_limits<bfloat16_t>::max()`: raw bits `0x7F7F`. -/
def max : bf16.bfloat16_t := ⟨0x7F7F⟩

/-- `std::numeric_limits<bfloat16_t>::epsilon()`: raw bits `0x3C00`. -/
def epsilon : bf16.bfloat16_t := ⟨0x3C00⟩

/-- `std::numeric_limits<bfloat16_t>::round_error()`: `bfloat16_t(0.5f)`;
the float literal `0.5f` has bit pattern `0x3F000000`. -/
def round_error : bf16.bfloat16_t := bf16.bfloat16_t.fromFloatBits 0x3F000000

/-- `std::numeric_limits<bfloat16_t>::infinity()`: `bfloat16_t::infinity()`. -/
def infinity : bf16.bfloat16_t := bf16.bfloat16_t.infinity

/-- `std::numeric_limits<bfloat16_t>::quiet_NaN()`: `bfloat16_t::nan()`. -/
def quiet_NaN : bf16.bfloat16_t := bf16.bfloat16_t.nan

/-- `std::numeric_limits<bfloat16_t>::denorm_min()`: raw bits `0x0001`. -/
def denorm_min : bf16.bfloat16_t := ⟨0x0001⟩

end std_numeric_limits

open bf16

/-! Helper lemmas shared by the claim theorems. -/

/-- The stored pattern, rewritten from shifts to division. -/
theorem fromFloatBits_data (b : Nat) :
    (bfloat16_t.fromFloatBits b).data =
      ((b % 2 ^ 32 + 0x7FFF) % 2 ^ 32) / 2 ^ 16 := by
  simp only [bfloat16_t.fromFloatBits, Nat.shiftRight_eq_div_pow]
  omega

/-- The widened pattern, rewritten from shifts to multiplication. -/
theorem toFloatBits_eq (x : bfloat16_t) :
    x.toFloatBits = (x.data % 2 ^ 16) * 2 ^ 16 := by
  simp only [bfloat16_t.toFloatBits, Nat.shiftLeft_eq]
  omega

/-- If every bit of `m₂` is a bit of `m₁` and `d` has no bit in common with
`m₁`, then `d` has no bit in common with `m₂`. -/
theorem land_zero_mono {d m₁ m₂ : Nat} (hs : m₂ &&& m₁ = m₂)
    (h : d &&& m₁ = 0) : d &&& m₂ = 0 := by
  apply Nat.eq_of_testBit_eq
  intro i
  have h1 : (d &&& m₁).testBit i = (0 : Nat).testBit i := by rw [h]
  have h2 : (m₂ &&& m₁).testBit i = m₂.testBit i := by rw [hs]
  simp only [Nat.testBit_land, Nat.zero_testBit] at h1 h2 ⊢
  cases hd : d.testBit i <;> cases hm : m₂.testBit i <;> simp_all

/-- Xor with a mask disjoint from `c` does not change the bits under `c`. -/
theorem xor_land_of_disjoint {a b c : Nat} (hd : b &&& c = 0) :
    (a ^^^ b) &&& c = a &&& c := by
  rw [Nat.and_xor_distrib_right, hd, Nat.xor_zero]

/-- For a 16-bit pattern, the sign bit is set iff the pattern is at least
`2 ^ 15`. -/
theorem land_sign_iff {d : Nat} (h : d < 2 ^ 16) :
    d &&& 0x8000 ≠ 0 ↔ 2 ^ 15 ≤ d := by
  have hpow : (0x8000 : Nat) = 2 ^ 15 := by norm_num
  rw [hpow, Nat.and_two_pow, Nat.testBit_to_div_mod]
  by_cases hb : d / 2 ^ 15 % 2 = 1 <;> simp [hb] <;> omega

/-! The claim theorems. -/

/-- C1: for every 32-bit float input `b`, the constructor stores exactly
`((b + 0x7FFF) mod 2^32) >> 16`; at float32 max (bits `0x7F7FFFFF`) the
rounding add carries into the exponent field and the stored pattern is the
infinity pattern `0x7F80`. -/
theorem narrow_stores_rounded_upper_bits :
    (∀ b : Nat, b < 2 ^ 32 →
      (bfloat16_t.fromFloatBits b).data = ((b + 0x7FFF) % 2 ^ 32) >>> 16)
    ∧ (bfloat16_t.fromFloatBits 0x7F7FFFFF).data = 0x7F80
    ∧ (bfloat16_t.fromFloatBits 0x7F7FFFFF).is_infinity = true := by
  refine ⟨fun b hb => ?_, by decide, by decide⟩
  have h1 : b % 2 ^ 32 = b := Nat.mod_eq_of_lt hb
  simp only [bfloat16_t.fromFloatBits, h1, Nat.shiftRight_eq_div_pow]
  omega

/-- Witness for C1 at the float32-max pattern. -/
theorem narrow_stores_rounded_upper_bits_witness :
    (0x7F7FFFFF : Nat) < 2 ^ 32 ∧
      (bfloat16_t.fromFloatBits 0x7F7FFFFF).data =
        ((0x7F7FFFFF + 0x7FFF) % 2 ^ 32) >>> 16 :=
  ⟨by decide, narrow_stores_rounded_upper_bits.1 0x7F7FFFFF (by decide)⟩

/-- C2: for every 32-bit float pattern whose lower 16 bits are zero,
narrowing then widening reproduces the pattern bit-for-bit; in particular
for the patterns of 0.0, 1.0, 2.0, 4.0 and 8.0. -/
theorem narrow_widen_roundtrip :
    (∀ f : Nat, f < 2 ^ 32 → f % 2 ^ 16 = 0 →
      (bfloat16_t.fromFloatBits f).toFloatBits = f)
    ∧ (bfloat16_t.fromFloatBits 0x00000000).toFloatBits = 0x00000000
    ∧ (bfloat16_t.fromFloatBits 0x3F800000).toFloatBits = 0x3F800000
    ∧ (bfloat16_t.fromFloatBits 0x40000000).toFloatBits = 0x40000000
    ∧ (bfloat16_t.fromFloatBits 0x40800000).toFloatBits = 0x40800000
    ∧ (bfloat16_t.fromFloatBits 0x41000000).toFloatBits = 0x41000000 := by
  refine ⟨fun f h32 h16 => ?_, by decide, by decide, by decide, by decide,
    by decide⟩
  simp only [bfloat16_t.fromFloatBits, bfloat16_t.toFloatBits,
    Nat.shiftRight_eq_div_pow, Nat.shiftLeft_eq]
  omega

/-- Witness for C2 at the pattern of 8.0f. -/
theorem narrow_widen_roundtrip_witness :
    (0x41000000 : Nat) < 2 ^ 32 ∧ (0x41000000 : Nat) % 2 ^ 16 = 0 ∧
      (bfloat16_t.fromFloatBits 0x41000000).toFloatBits = 0x41000000 :=
  ⟨by decide, by decide,
    narrow_widen_roundtrip.1 0x41000000 (by decide) (by decide)⟩

/-- C3: the code does not preserve NaN under narrowing.  The float32 NaN
with bits `0x7F800001` (exponent field all ones, mantissa nonzero) narrows
to the infinity pattern `0x7F80`, which classifies as infinity, not NaN;
the NaN with bits `0x7FFFFFFF` narrows to `0x8000`, the negative-zero
pattern. -/
theorem narrow_nan_not_preserved :
    ((0x7F800001 : Nat) >>> 23) &&& 0xFF = 0xFF ∧
    (0x7F800001 : Nat) &&& 0x7FFFFF ≠ 0 ∧
    (bfloat16_t.fromFloatBits 0x7F800001).data = 0x7F80 ∧
    (bfloat16_t.fromFloatBits 0x7F800001).is_nan = false ∧
    (bfloat16_t.fromFloatBits 0x7F800001).is_infinity = true ∧
    ((0x7FFFFFFF : Nat) >>> 23) &&& 0xFF = 0xFF ∧
    (0x7FFFFFFF : Nat) &&& 0x7FFFFF ≠ 0 ∧
    (bfloat16_t.fromFloatBits 0x7FFFFFFF).data = 0x8000 ∧
    (bfloat16_t.fromFloatBits 0x7FFFFFFF).is_nan = false ∧
    (bfloat16_t.fromFloatBits 0x7FFFFFFF).is_zero = true ∧
    (bfloat16_t.fromFloatBits 0x7FFFFFFF).is_negative = true := by
  decide

/-- C6: the numeric-limits table stores exactly the published bit
patterns, and `round_error()` is the narrowing of 0.5f, pattern `0x3F00`. -/
theorem numeric_limits_bit_patterns :
    std_numeric_limits.min.data = 0x0080 ∧
    std_numeric_limits.lowest.data = 0xFF7F ∧
    std_numeric_limits.max.data = 0x7F7F ∧
    std_numeric_limits.epsilon.data = 0x3C00 ∧
    std_numeric_limits.denorm_min.data = 0x0001 ∧
    std_numeric_limits.infinity.data = 0x7F80 ∧
    std_numeric_limits.quiet_NaN.data = 0x7F81 ∧
    std_numeric_limits.round_error = bfloat16_t.fromFloatBits 0x3F000000 ∧
    std_numeric_limits.round_error.data = 0x3F00 := by
  decide

/-- C7: the two float32 infinities narrow to the bfloat16 infinity
patterns of the same sign, and both classify as infinite. -/
theorem narrow_infinity_preserved :
    (bfloat16_t.fromFloatBits 0x7F800000).data = 0x7F80 ∧
    (bfloat16_t.fromFloatBits 0x7F800000).is_infinity = true ∧
    (bfloat16_t.fromFloatBits 0x7F800000).is_negative = false ∧
    (bfloat16_t.fromFloatBits 0xFF800000).data = 0xFF80 ∧
    (bfloat16_t.fromFloatBits 0xFF800000).is_infinity = true ∧
    (bfloat16_t.fromFloatBits 0xFF800000).is_negative = true := by
  decide

/-- C4: equality and ordering are exactly comparison of the raw 16-bit
stored patterns; consequently the narrowings of +0.0f and -0.0f compare
unequal, equal NaN patterns compare equal, and distinct NaN patterns
compare unequal and ordered. -/
theorem comparison_is_raw_bits :
    (∀ x y : bfloat16_t,
      (x.beq y = true ↔ x.data = y.data) ∧
      (x.cmp y = Ordering.eq ↔ x.data = y.data) ∧
      (x.cmp y = Ordering.lt ↔ x.data < y.data) ∧
      (x.cmp y = Ordering.gt ↔ y.data < x.data))
    ∧ (bfloat16_t.fromFloatBits 0x00000000).beq
        (bfloat16_t.fromFloatBits 0x80000000) = false
    ∧ bfloat16_t.nan.beq bfloat16_t.nan = true
    ∧ bfloat16_t.nan.beq ⟨0x7FC0⟩ = false
    ∧ bfloat16_t.nan.cmp ⟨0x7FC0⟩ = Ordering.lt := by
  refine ⟨fun x y => ?_, by decide, by decide, by decide, by decide⟩
  unfold bfloat16_t.beq bfloat16_t.cmp
  refine ⟨by simp, ?_, ?_, ?_⟩ <;> split_ifs <;> simp_all <;> omega

/-- C5: each binary operator widens both operands, applies the platform's
float32 operation to the 32-bit patterns, and narrows the result; each
compound-assignment operator leaves the receiver holding exactly that same
narrowed result.  The float32 operations are explicit parameters. -/
theorem binary_operators_promote_compute_demote :
    ∀ (f32add f32sub f32mul f32div : Nat → Nat → Nat) (a b : bfloat16_t),
      bfloat16_t.add f32add a b =
          bfloat16_t.fromFloatBits (f32add a.toFloatBits b.toFloatBits)
        ∧ bfloat16_t.addAssign f32add a b = bfloat16_t.add f32add a b
        ∧ bfloat16_t.sub f32sub a b =
          bfloat16_t.fromFloatBits (f32sub a.toFloatBits b.toFloatBits)
        ∧ bfloat16_t.subAssign f32sub a b = bfloat16_t.sub f32sub a b
        ∧ bfloat16_t.mul f32mul a b =
          bfloat16_t.fromFloatBits (f32mul a.toFloatBits b.toFloatBits)
        ∧ bfloat16_t.mulAssign f32mul a b = bfloat16_t.mul f32mul a b
        ∧ bfloat16_t.div f32div a b =
          bfloat16_t.fromFloatBits (f32div a.toFloatBits b.toFloatBits)
        ∧ bfloat16_t.divAssign f32div a b = bfloat16_t.div f32div a b :=
  fun _ _ _ _ _ _ => ⟨rfl, rfl, rfl, rfl, rfl, rfl, rfl, rfl⟩

/-- C8: unary negation xors the stored pattern with `0x8000`: the sign bit
flips, the exponent and mantissa fields are untouched, and negation is an
involution. -/
theorem negation_flips_only_sign_bit :
    ∀ x : bfloat16_t, x.data < 2 ^ 16 →
      x.neg.data = x.data ^^^ 0x8000
      ∧ x.neg.data &&& EXP_MASK = x.data &&& EXP_MASK
      ∧ x.neg.data &&& MANT_MASK = x.data &&& MANT_MASK
      ∧ x.neg.is_negative = !x.is_negative
      ∧ x.neg.neg = x := by
  intro x h
  obtain ⟨d⟩ := x
  have hlt : d ^^^ 0x8000 < 2 ^ 16 :=
    Nat.xor_lt_two_pow h (by norm_num)
  have hdata : (bfloat16_t.neg ⟨d⟩).data = d ^^^ 0x8000 := by
    simp only [bfloat16_t.neg, SIGN_MASK]
    exact Nat.mod_eq_of_lt hlt
  refine ⟨hdata, ?_, ?_, ?_, ?_⟩
  · rw [hdata]
    exact xor_land_of_disjoint (by decide)
  · rw [hdata]
    exact xor_land_of_disjoint (by decide)
  · simp only [bfloat16_t.is_negative, hdata, SIGN_MASK]
    have hpow : (0x8000 : Nat) = 2 ^ 15 := by norm_num
    rw [hpow, Nat.and_two_pow, Nat.and_two_pow]
    have hx : (d ^^^ 2 ^ 15).testBit 15 = !(d.testBit 15) := by
      rw [Nat.testBit_xor]
      have ht : ((2 : Nat) ^ 15).testBit 15 = true := by decide
      rw [ht]
      cases d.testBit 15 <;> rfl
    rw [hx]
    cases d.testBit 15 <;> decide
  · have hlt2 : (d ^^^ 0x8000) ^^^ 0x8000 < 2 ^ 16 :=
      Nat.xor_lt_two_pow hlt (by norm_num)
    have hdata2 : (bfloat16_t.neg (bfloat16_t.neg ⟨d⟩)).data =
        (d ^^^ 0x8000) ^^^ 0x8000 := by
      simp only [bfloat16_t.neg, SIGN_MASK]
      rw [Nat.mod_eq_of_lt hlt, Nat.mod_eq_of_lt hlt2]
    have hfin : (d ^^^ 0x8000) ^^^ 0x8000 = d := by
      rw [Nat.xor_assoc, Nat.xor_self, Nat.xor_zero]
    exact congrArg bfloat16_t.mk (hdata2.trans hfin)

/-- Witness for C8 at the pattern of -1.0 (`0xBF80`). -/
theorem negation_flips_only_sign_bit_witness :
    (⟨0xBF80⟩ : bfloat16_t).data < 2 ^ 16 ∧
      (⟨0xBF80⟩ : bfloat16_t).neg.neg = ⟨0xBF80⟩ :=
  ⟨by decide, (negation_flips_only_sign_bit ⟨0xBF80⟩ (by decide)).2.2.2.2⟩

/-- C9: under the raw-pattern ordering, every well-formed value with the
sign bit set compares strictly greater than every well-formed value with
the sign bit clear; in particular the narrowing of -1.0 exceeds the
narrowing of 1.0, and `negative_infinity()` exceeds `infinity()`. -/
theorem sign_bit_dominates_ordering :
    (∀ x y : bfloat16_t, x.data < 2 ^ 16 → y.data < 2 ^ 16 →
      x.is_negative = true → y.is_negative = false →
      x.cmp y = Ordering.gt ∧ y.cmp x = Ordering.lt)
    ∧ (bfloat16_t.fromFloatBits 0xBF800000).cmp
        (bfloat16_t.fromFloatBits 0x3F800000) = Ordering.gt
    ∧ bfloat16_t.negative_infinity.cmp bfloat16_t.infinity = Ordering.gt := by
  refine ⟨fun x y hx hy hxneg hyneg => ?_, by decide, by decide⟩
  have hx' : 2 ^ 15 ≤ x.data := by
    apply (land_sign_iff hx).mp
    simpa [bfloat16_t.is_negative, SIGN_MASK] using hxneg
  have hy0 : y.data &&& 0x8000 = 0 := by
    simpa [bfloat16_t.is_negative, SIGN_MASK] using hyneg
  have hy' : y.data < 2 ^ 15 := by
    by_contra hge
    exact (land_sign_iff hy).mpr (by omega) hy0
  constructor
  · unfold bfloat16_t.cmp
    rw [if_neg (by omega), if_neg (by omega)]
  · unfold bfloat16_t.cmp
    rw [if_pos (by omega)]

/-- Witness for C9 at the patterns of -1.0 and 1.0. -/
theorem sign_bit_dominates_ordering_witness :
    (⟨0xBF80⟩ : bfloat16_t).data < 2 ^ 16 ∧
    (⟨0x3F80⟩ : bfloat16_t).data < 2 ^ 16 ∧
    (⟨0xBF80⟩ : bfloat16_t).is_negative = true ∧
    (⟨0x3F80⟩ : bfloat16_t).is_negative = false ∧
    ((⟨0xBF80⟩ : bfloat16_t).cmp ⟨0x3F80⟩ = Ordering.gt ∧
      (⟨0x3F80⟩ : bfloat16_t).cmp ⟨0xBF80⟩ = Ordering.lt) :=
  ⟨by decide, by decide, by decide, by decide,
    sign_bit_dominates_ordering.1 ⟨0xBF80⟩ ⟨0x3F80⟩ (by decide) (by decide)
      (by decide) (by decide)⟩

/-- C10: the classifier predicates are mutually exclusive on every
pattern: a value is never both NaN and infinite, and a zero value is
neither NaN nor infinite. -/
theorem classifiers_mutually_exclusive :
    ∀ x : bfloat16_t,
      (x.is_nan && x.is_infinity) = false
      ∧ (x.is_zero && x.is_nan) = false
      ∧ (x.is_zero && x.is_infinity) = false := by
  intro x
  have hz : x.is_zero = true → x.data &&& EXP_MASK = 0 := by
    intro h
    simp only [bfloat16_t.is_zero, beq_iff_eq] at h
    exact land_zero_mono (by decide) h
  refine ⟨?_, ?_, ?_⟩
  · simp only [bfloat16_t.is_nan, bfloat16_t.is_infinity]
    cases hA : (x.data &&& EXP_MASK == EXP_MASK) <;>
      cases hC : (x.data &&& MANT_MASK == 0) <;> simp [hA, hC, bne]
  · cases hzb : x.is_zero
    · simp
    · have h2 : (x.data &&& EXP_MASK == EXP_MASK) = false := by
        have h1 : x.data &&& 32640 = 0 := hz hzb
        simp [h1, EXP_MASK]
      simp [bfloat16_t.is_nan, h2]
  · cases hzb : x.is_zero
    · simp
    · have h2 : (x.data &&& EXP_MASK == EXP_MASK) = false := by
        have h1 : x.data &&& 32640 = 0 := hz hzb
        simp [h1, EXP_MASK]
      simp [bfloat16_t.is_infinity, h2]
